import Mathlib

/-!
Shallow embedding of the core logic of the tallyforms worker
(`src/index.js`): the date-limit computation (`updateFormDateLimits`
lines 326-465 together with `formatDate` lines 550-555), the scheduling
decision (`shouldUpdateNow` lines 468-507), the quota counter
(`checkRateLimit` / `incrementRateLimit` lines 510-539) and the save
handler (`handleSaveConfig` lines 260-320).

The worker runs on a UTC host; `new Date(now.toLocaleString(. . .))`
reinterprets the wall-clock time of the configured timezone as a host
time, so `setDate(getDate() + k)` performs pure proleptic-Gregorian
calendar-day arithmetic on the local year/month/day.  The embedding
therefore takes the local calendar date (and local hour) obtained from
the timezone conversion as input, and models the `setDate` arithmetic
exactly: the day value is normalised against the month by borrowing or
carrying whole months, as in the ECMAScript `MakeDay` operation.
External effects (the KV store, the Tally HTTP gateway) are modelled by
explicit state passing.
-/

/-- A proleptic Gregorian calendar date, as held by a JS `Date` read on a
UTC host: `getFullYear()` / `getMonth()+1` / `getDate()`. -/
structure CivilDate where
  year : Int
  month : Int
  day : Int
deriving DecidableEq

/-- Gregorian leap-year rule used by the JS `Date` object. -/
def isLeap (y : Int) : Bool :=
  y % 4 = 0 && (y % 100 ≠ 0 || y % 400 = 0)

/-- Number of days in a month of a given year (JS `Date` month lengths;
the argument `m` is the 1-based month). -/
def daysInMonth (y m : Int) : Int :=
  if m = 2 then (if isLeap y then 29 else 28)
  else if m = 4 ∨ m = 6 ∨ m = 9 ∨ m = 11 then 30
  else 31

/-- A calendar date is valid when the month is 1..12 and the day fits the
month. -/
def CivilDate.Valid (d : CivilDate) : Prop :=
  1 ≤ d.month ∧ d.month ≤ 12 ∧ 1 ≤ d.day ∧ d.day ≤ daysInMonth d.year d.month

instance (d : CivilDate) : Decidable d.Valid := by
  unfold CivilDate.Valid
  infer_instance

/-- The calendar day after `d` (specification-side "one whole day"). -/
def nextDay (d : CivilDate) : CivilDate :=
  if d.day < daysInMonth d.year d.month then ⟨d.year, d.month, d.day + 1⟩
  else if d.month < 12 then ⟨d.year, d.month + 1, 1⟩
  else ⟨d.year + 1, 1, 1⟩

/-- The calendar day before `d` (specification-side "one whole day"). -/
def prevDay (d : CivilDate) : CivilDate :=
  if 1 < d.day then ⟨d.year, d.month, d.day - 1⟩
  else if 1 < d.month then ⟨d.year, d.month - 1, daysInMonth d.year (d.month - 1)⟩
  else ⟨d.year - 1, 12, 31⟩

/-- Modelled from the spec: "adding `offsetDays` whole days" means
iterating the next-day (or, for a negative offset, previous-day)
step `|offsetDays|` times. -/
def specAddDays (d : CivilDate) (k : Int) : CivilDate :=
  if 0 ≤ k then nextDay^[k.toNat] d else prevDay^[(-k).toNat] d

/-- Day-of-month normalisation for an overflowing day value (ECMAScript
`MakeDay`): carry whole months upward while the day exceeds the month
length. -/
def normUp (y m day : Int) : CivilDate :=
  if day ≤ daysInMonth y m then ⟨y, m, day⟩
  else if m < 12 then normUp y (m + 1) (day - daysInMonth y m)
  else normUp (y + 1) 1 (day - daysInMonth y m)
termination_by day.toNat
decreasing_by
  all_goals
    have h28 : 28 ≤ daysInMonth y m := by
      unfold daysInMonth
      split_ifs <;> omega
    omega

/-- Day-of-month normalisation for an underflowing day value (ECMAScript
`MakeDay`): borrow whole months downward while the day is below 1. -/
def normDown (y m day : Int) : CivilDate :=
  if 1 < m then
    if 1 ≤ day + daysInMonth y (m - 1) then ⟨y, m - 1, day + daysInMonth y (m - 1)⟩
    else normDown y (m - 1) (day + daysInMonth y (m - 1))
  else
    if 1 ≤ day + daysInMonth (y - 1) 12 then ⟨y - 1, 12, day + daysInMonth (y - 1) 12⟩
    else normDown (y - 1) 12 (day + daysInMonth (y - 1) 12)
termination_by (1 - day).toNat
decreasing_by
  · have h28 : 28 ≤ daysInMonth y (m - 1) := by
      unfold daysInMonth
      split_ifs <;> omega
    omega
  · have h28 : 28 ≤ daysInMonth (y - 1) 12 := by
      unfold daysInMonth
      split_ifs <;> omega
    omega

/-- Embedding of `minDate.setDate(minDate.getDate() + offsetDays)` from
`updateFormDateLimits` (src/index.js lines 396-397 and 410-411): the new
day value `d.day + k` is normalised against the current month. -/
def jsAddDays (d : CivilDate) (k : Int) : CivilDate :=
  if d.day + k ≤ 0 then normDown d.year d.month (d.day + k)
  else if d.day + k ≤ daysInMonth d.year d.month then ⟨d.year, d.month, d.day + k⟩
  else normUp d.year d.month (d.day + k)

/-- `String(n).padStart(2, '0')` for the month and day components. -/
def pad2 (n : Int) : String :=
  if 0 ≤ n ∧ n < 10 then "0" ++ toString n else toString n

/-- `formatDate` (src/index.js lines 550-555): `YYYY-MM-DD` with
two-digit month and day.  The same expression builds the `todayDate`
string inside `shouldUpdateNow` (lines 488 and 497). -/
def formatDate (d : CivilDate) : String :=
  toString d.year ++ "-" ++ pad2 d.month ++ "-" ++ pad2 d.day

/-- The boundary string the patcher writes for one offset: local
calendar date of "now", shifted by `k` days via the JS `setDate`
arithmetic, then formatted (src/index.js lines 396-398, 410-412). -/
def computeBoundary (d : CivilDate) (k : Int) : String :=
  formatDate (jsAddDays d k)

/-- One per-field rule of a saved configuration.  JS distinguishes an
absent (`undefined`) offset from an explicit `null`: `none` models
`undefined`, `some none` models `null`, `some (some k)` a number. -/
structure FieldRule where
  enabled : Bool
  minDays : Option (Option Int)
  maxDays : Option (Option Int)
deriving DecidableEq

/-- The date-limit attributes of a Tally `INPUT_DATE` block payload
(`afterDate` is the earliest selectable day, `beforeDate` the latest). -/
structure BlockPayload where
  afterDate : Option String
  beforeDate : Option String
deriving DecidableEq

/-- A block of the remote form definition; only `INPUT_DATE` blocks are
touched by the patcher. -/
structure Block where
  type : String
  uuid : String
  payload : BlockPayload
deriving DecidableEq

/-- JS object property lookup `config.fields[block.uuid]`. -/
def findRule : List (String × FieldRule) → String → Option FieldRule
  | [], _ => none
  | (u, r) :: rest, uuid => if u = uuid then some r else findRule rest uuid

/-- `fieldConfig.minDays !== null && fieldConfig.minDays !== undefined`
(src/index.js lines 364-365) yields the configured numeric offset. -/
def configuredOffset : Option (Option Int) → Option Int
  | some (some n) => some n
  | _ => none

/-- The `hasMinDays` branch of `updateFormDateLimits` (lines 395-406):
write `afterDate` only when it differs from the computed boundary. -/
def applyMin (d : CivilDate) (off : Option Int) (p : BlockPayload) : BlockPayload × Bool :=
  match off with
  | some k =>
    if p.afterDate = some (computeBoundary d k) then (p, false)
    else ({ p with afterDate := some (computeBoundary d k) }, true)
  | none => (p, false)

/-- The `hasMaxDays` branch of `updateFormDateLimits` (lines 409-420):
write `beforeDate` only when it differs from the computed boundary. -/
def applyMax (d : CivilDate) (off : Option Int) (p : BlockPayload) : BlockPayload × Bool :=
  match off with
  | some k =>
    if p.beforeDate = some (computeBoundary d k) then (p, false)
    else ({ p with beforeDate := some (computeBoundary d k) }, true)
  | none => (p, false)

/-- Per-block body of the `form.blocks.forEach` loop of
`updateFormDateLimits` (lines 354-429): skip non-date blocks, blocks
without a rule, disabled rules and rules with no configured offset;
otherwise update each configured boundary that changed, returning the
(possibly) updated block and the `fieldModified` flag. -/
def updateField (rules : List (String × FieldRule)) (d : CivilDate) (b : Block) :
    Block × Bool :=
  if b.type ≠ "INPUT_DATE" then (b, false) else
  match findRule rules b.uuid with
  | none => (b, false)
  | some fc =>
    if fc.enabled = false then (b, false)
    else if (configuredOffset fc.minDays).isNone && (configuredOffset fc.maxDays).isNone then
      (b, false)
    else
      let s1 := applyMin d (configuredOffset fc.minDays) b.payload
      let s2 := applyMax d (configuredOffset fc.maxDays) s1.1
      ({ b with payload := s2.1 }, s1.2 || s2.2)

/-- The whole `forEach` pass: updated blocks plus the `blocksModified`
flag (true when at least one field changed). -/
def updateBlocks (rules : List (String × FieldRule)) (d : CivilDate) :
    List Block → List Block × Bool
  | [] => ([], false)
  | b :: bs =>
    let p := updateField rules d b
    let q := updateBlocks rules d bs
    (p.1 :: q.1, p.2 || q.2)

/-- Outcome of one patcher invocation: whether a PATCH write was issued,
and the resulting remote block list (unchanged when no write). -/
structure PatchResult where
  written : Bool
  blocks : List Block
deriving DecidableEq

/-- A stored Configuration (`handleSaveConfig` lines 285-293). -/
structure StoredConfig where
  apiKey : String
  formId : String
  timezone : String
  fields : List (String × FieldRule)
  lastRun : Option Int
  disabled : Bool
  updatedAt : Int
deriving DecidableEq

/-- The pure diff-and-patch computation of `updateFormDateLimits`
(lines 343-459) on an already-fetched block list, with `d` the local
calendar date of "now" in the configuration's timezone: if no field
changed, no write happens and the remote blocks stay as read. -/
def updateFormDateLimits (cfg : StoredConfig) (d : CivilDate) (remoteBlocks : List Block) :
    PatchResult :=
  let r := updateBlocks cfg.fields d remoteBlocks
  if r.2 then ⟨true, r.1⟩ else ⟨false, remoteBlocks⟩

/-- The per-configuration run metadata (`shouldUpdateNow` lines
498-504). -/
structure RunMetadata where
  lastUpdateHour : Int
  lastUpdateDate : String
  timezone : String
deriving DecidableEq

/-- `shouldUpdateNow` (src/index.js lines 468-507) with the timezone
conversion abstracted to the local calendar date `tzDate` and local hour
`tzHour` of "now": disabled configurations are never due; a metadata
record matching today's local date and hour means not-due; otherwise the
decision is due and fresh metadata is persisted. -/
def shouldUpdateNow (config : StoredConfig) (tzDate : CivilDate) (tzHour : Int)
    (meta : Option RunMetadata) : Bool × Option RunMetadata :=
  if config.disabled then (false, meta)
  else
    match meta with
    | some md =>
      if md.lastUpdateDate = formatDate tzDate ∧ md.lastUpdateHour = tzHour then (false, meta)
      else (true, some ⟨tzHour, formatDate tzDate, config.timezone⟩)
    | none => (true, some ⟨tzHour, formatDate tzDate, config.timezone⟩)

/-- The error message thrown by `incrementRateLimit` (line 528) and shown
for `/api/forms` (line 140). -/
def rateLimitErrorMsg : String :=
  "Rate limit exceeded. You can only configure 5 forms per day."

/-- `checkRateLimit` (lines 510-519): read-only; true when no counter is
stored or the stored count is below 5. -/
def checkRateLimit : Option Nat → Bool
  | none => true
  | some n => decide (n < 5)

/-- `incrementRateLimit` (lines 521-539): re-read the counter, fail
without mutating when it is at or above 5, otherwise persist the
incremented count. -/
def incrementRateLimit (rate : Option Nat) : Except String (Option Nat) :=
  if 5 ≤ rate.getD 0 then Except.error rateLimitErrorMsg
  else Except.ok (some (rate.getD 0 + 1))

/-- Chain `n` reservation attempts, threading the stored counter. -/
def reserveRepeatedly : Nat → Option Nat → Except String (Option Nat)
  | 0, st => Except.ok st
  | n + 1, st =>
    match incrementRateLimit st with
    | Except.ok st2 => reserveRepeatedly n st2
    | Except.error e => Except.error e

/-- The body of an `/api/save-config` request (lines 262-263); a missing
JSON field arrives as a falsy value, modelled by the empty string. -/
structure SaveRequest where
  apiKey : String
  formId : String
  timezone : String
  fields : List (String × FieldRule)
deriving DecidableEq

/-- `hasActiveFields` (lines 281-283): some rule is enabled and has
`minDays !== null || maxDays !== null` — note that in JS an absent
(`undefined`) offset also satisfies `!== null`. -/
def hasActiveFields (fields : List (String × FieldRule)) : Bool :=
  fields.any fun p =>
    p.2.enabled && (decide (p.2.minDays ≠ some none) || decide (p.2.maxDays ≠ some none))

/-- The external state a save request can touch: the stored configuration
for the request's form (with its optional TTL), the quota counter for
the requester, the remote form definition (reading it may fail), and
whether a PATCH write would succeed. -/
structure World where
  config : Option (StoredConfig × Option Nat)
  rate : Option Nat
  remoteForm : Except String (List Block)
  writeOk : Bool

/-- Result of a handler as seen by the caller: HTTP 200 `success:true`,
or an error status with the thrown message (the catch blocks at lines
111-113 and 316-319 turn a thrown error into the response). -/
inductive SaveResult where
  | ok : SaveResult
  | err : Nat → String → SaveResult
deriving DecidableEq

/-- The effectful run of `updateFormDateLimits`: fetching the remote form
may fail, and when a write is needed a failing PATCH response is
surfaced as a thrown error (lines 336-338 and 449-453). -/
def runPatch (cfg : StoredConfig) (d : CivilDate) (w : World) : Except String (Bool × World) :=
  match w.remoteForm with
  | Except.error e => Except.error e
  | Except.ok blocks =>
    let r := updateFormDateLimits cfg d blocks
    if r.written then
      if w.writeOk then Except.ok (true, { w with remoteForm := Except.ok r.blocks })
      else Except.error "Failed to update form via Tally API"
    else Except.ok (false, w)

/-- `handleSaveConfig` (src/index.js lines 260-320): validate, charge
quota only for a brand-new configuration (a thrown quota error becomes
the response), classify activity, store (with a 3-day TTL when
inactive), and on the active path immediately apply the patch with any
failure swallowed (lines 304-311). -/
def handleSaveConfig (req : SaveRequest) (d : CivilDate) (nowMs : Int) (w : World) :
    SaveResult × World :=
  if req.apiKey = "" ∨ req.formId = "" ∨ req.timezone = "" then
    (SaveResult.err 400 "Missing required fields", w)
  else
    match (match w.config with
           | some _ => Except.ok w.rate
           | none => incrementRateLimit w.rate) with
    | Except.error msg => (SaveResult.err 500 msg, w)
    | Except.ok rate2 =>
      let cfg : StoredConfig :=
        ⟨req.apiKey, req.formId, req.timezone, req.fields, none,
         !(hasActiveFields req.fields), nowMs⟩
      if hasActiveFields req.fields = false then
        (SaveResult.ok, { w with config := some (cfg, some 259200), rate := rate2 })
      else
        let w1 : World := { w with config := some (cfg, none), rate := rate2 }
        match runPatch cfg d w1 with
        | Except.error _ => (SaveResult.ok, w1)
        | Except.ok pr => (SaveResult.ok, pr.2)

/-- One configuration's step of `runCronTask` (lines 91-114): first the
scheduling decision (which already persisted its metadata), then — only
when due — the patch attempt. -/
def runCronStep (cfg : StoredConfig) (tzDate : CivilDate) (tzHour : Int)
    (meta : Option RunMetadata) (w : World) :
    Option RunMetadata × Except String (Bool × World) :=
  let s := shouldUpdateNow cfg tzDate tzHour meta
  if s.1 then (s.2, runPatch cfg tzDate w) else (s.2, Except.ok (false, w))

set_option maxRecDepth 10000

theorem daysInMonth_ge28 (y m : Int) : 28 ≤ daysInMonth y m := by
  unfold daysInMonth
  split_ifs <;> omega

theorem daysInMonth_le31 (y m : Int) : daysInMonth y m ≤ 31 := by
  unfold daysInMonth
  split_ifs <;> omega

theorem daysInMonth_dec (y : Int) : daysInMonth y 12 = 31 := by
  norm_num [daysInMonth]

theorem nextDay_valid {d : CivilDate} (h : d.Valid) : (nextDay d).Valid := by
  obtain ⟨y, m, day⟩ := d
  obtain ⟨h1, h2, h3, h4⟩ := h
  have h28a := daysInMonth_ge28 y (m + 1)
  have h28b := daysInMonth_ge28 (y + 1) 1
  simp only [CivilDate.Valid, nextDay] at h1 h2 h3 h4 ⊢
  split_ifs with ha hb <;> dsimp only at ha ⊢ <;>
    exact ⟨by omega, by omega, by omega, by omega⟩

theorem prevDay_valid {d : CivilDate} (h : d.Valid) : (prevDay d).Valid := by
  obtain ⟨y, m, day⟩ := d
  obtain ⟨h1, h2, h3, h4⟩ := h
  have h28a := daysInMonth_ge28 y (m - 1)
  have h31 := daysInMonth_dec (y - 1)
  simp only [CivilDate.Valid, prevDay] at h1 h2 h3 h4 ⊢
  split_ifs with ha hb <;> dsimp only at ha ⊢ <;>
    exact ⟨by omega, by omega, by omega, by omega⟩

theorem iterate_nextDay_valid (n : Nat) {d : CivilDate} (h : d.Valid) :
    (nextDay^[n] d).Valid := by
  induction n with
  | zero => simpa using h
  | succ n ih => rw [Function.iterate_succ_apply']; exact nextDay_valid ih

theorem iterate_prevDay_valid (n : Nat) {d : CivilDate} (h : d.Valid) :
    (prevDay^[n] d).Valid := by
  induction n with
  | zero => simpa using h
  | succ n ih => rw [Function.iterate_succ_apply']; exact prevDay_valid ih

theorem specAddDays_valid {d : CivilDate} (k : Int) (h : d.Valid) :
    (specAddDays d k).Valid := by
  unfold specAddDays
  split_ifs
  · exact iterate_nextDay_valid _ h
  · exact iterate_prevDay_valid _ h

theorem iter_nextDay_within (y m : Int) :
    ∀ (j : Nat) (d : Int), d + (j : Int) ≤ daysInMonth y m →
      nextDay^[j] ⟨y, m, d⟩ = ⟨y, m, d + (j : Int)⟩ := by
  intro j
  induction j with
  | zero => intro d _; simp
  | succ j ih =>
    intro d h
    have hd : d < daysInMonth y m := by push_cast at h; omega
    rw [Function.iterate_succ_apply]
    have hstep : nextDay ⟨y, m, d⟩ = ⟨y, m, d + 1⟩ := by
      unfold nextDay
      simp [hd]
    rw [hstep, ih (d + 1) (by push_cast at h ⊢; omega)]
    simp only [CivilDate.mk.injEq, true_and]
    push_cast
    ring

theorem iter_prevDay_within (y m : Int) :
    ∀ (j : Nat) (d : Int), (j : Int) < d →
      prevDay^[j] ⟨y, m, d⟩ = ⟨y, m, d - (j : Int)⟩ := by
  intro j
  induction j with
  | zero => intro d _; simp
  | succ j ih =>
    intro d h
    have hd : 1 < d := by push_cast at h; omega
    rw [Function.iterate_succ_apply]
    have hstep : prevDay ⟨y, m, d⟩ = ⟨y, m, d - 1⟩ := by
      unfold prevDay
      simp [hd]
    rw [hstep, ih (d - 1) (by push_cast at h ⊢; omega)]
    simp only [CivilDate.mk.injEq, true_and]
    push_cast
    ring

theorem nextDay_month_step (y m : Int) (_hm1 : 1 ≤ m) (_hm2 : m ≤ 12) :
    nextDay^[(daysInMonth y m).toNat] ⟨y, m, 1⟩ =
      if m < 12 then ⟨y, m + 1, 1⟩ else ⟨y + 1, 1, 1⟩ := by
  have h28 := daysInMonth_ge28 y m
  have hsplit : (daysInMonth y m).toNat = (daysInMonth y m - 1).toNat + 1 := by omega
  rw [hsplit, Function.iterate_succ_apply']
  rw [iter_nextDay_within y m (daysInMonth y m - 1).toNat 1 (by omega)]
  have hone : (1 : Int) + ((daysInMonth y m - 1).toNat : Int) = daysInMonth y m := by omega
  rw [hone]
  unfold nextDay
  simp

theorem prevDay_month_step_mid (y m : Int) (hm : 1 < m) :
    prevDay^[(daysInMonth y (m - 1)).toNat] ⟨y, m, 1⟩ = ⟨y, m - 1, 1⟩ := by
  have h28 := daysInMonth_ge28 y (m - 1)
  have hsplit : (daysInMonth y (m - 1)).toNat = (daysInMonth y (m - 1) - 1).toNat + 1 := by
    omega
  rw [hsplit, Function.iterate_succ_apply]
  have hstep : prevDay ⟨y, m, 1⟩ = ⟨y, m - 1, daysInMonth y (m - 1)⟩ := by
    simp [prevDay, hm]
  rw [hstep, iter_prevDay_within y (m - 1) _ _ (by omega)]
  simp only [CivilDate.mk.injEq, true_and]
  omega

theorem prevDay_month_step_jan (y : Int) :
    prevDay^[(daysInMonth (y - 1) 12).toNat] ⟨y, 1, 1⟩ = ⟨y - 1, 12, 1⟩ := by
  have h28 := daysInMonth_ge28 (y - 1) 12
  have h31 := daysInMonth_dec (y - 1)
  have hsplit : (daysInMonth (y - 1) 12).toNat = (daysInMonth (y - 1) 12 - 1).toNat + 1 := by
    omega
  rw [hsplit, Function.iterate_succ_apply]
  have hstep : prevDay ⟨y, 1, 1⟩ = ⟨y - 1, 12, daysInMonth (y - 1) 12⟩ := by
    simp [prevDay, h31]
  rw [hstep, iter_prevDay_within (y - 1) 12 _ _ (by omega)]
  simp only [CivilDate.mk.injEq, true_and]
  omega

theorem normUp_eq_iter :
    ∀ (fuel : Nat) (y m day : Int), day.toNat ≤ fuel → 1 ≤ m → m ≤ 12 → 1 ≤ day →
      normUp y m day = nextDay^[(day - 1).toNat] ⟨y, m, 1⟩ := by
  intro fuel
  induction fuel with
  | zero => intro y m day hf _ _ hd; omega
  | succ fuel ih =>
    intro y m day hf hm1 hm2 hd
    have h28 := daysInMonth_ge28 y m
    rw [normUp]
    split_ifs with h1 h2
    · rw [iter_nextDay_within y m (day - 1).toNat 1 (by omega)]
      simp only [CivilDate.mk.injEq, true_and]
      omega
    · rw [ih y (m + 1) (day - daysInMonth y m) (by omega) (by omega) (by omega) (by omega)]
      have hsplit : (day - 1).toNat =
          (day - daysInMonth y m - 1).toNat + (daysInMonth y m).toNat := by omega
      rw [hsplit, Function.iterate_add_apply, nextDay_month_step y m hm1 hm2, if_pos h2]
    · rw [ih (y + 1) 1 (day - daysInMonth y m) (by omega) (by omega) (by omega) (by omega)]
      have hsplit : (day - 1).toNat =
          (day - daysInMonth y m - 1).toNat + (daysInMonth y m).toNat := by omega
      rw [hsplit, Function.iterate_add_apply, nextDay_month_step y m hm1 hm2, if_neg h2]

theorem normDown_eq_iter :
    ∀ (fuel : Nat) (y m day : Int), (1 - day).toNat ≤ fuel → 1 ≤ m → m ≤ 12 → day ≤ 0 →
      normDown y m day = prevDay^[(1 - day).toNat] ⟨y, m, 1⟩ := by
  intro fuel
  induction fuel with
  | zero => intro y m day hf _ _ hd; omega
  | succ fuel ih =>
    intro y m day hf hm1 hm2 hd
    rw [normDown]
    split_ifs with hm h1 h2
    · have h28 := daysInMonth_ge28 y (m - 1)
      have hsplit : (1 - day).toNat = (-day).toNat + 1 := by omega
      rw [hsplit, Function.iterate_succ_apply]
      have hstep : prevDay ⟨y, m, 1⟩ = ⟨y, m - 1, daysInMonth y (m - 1)⟩ := by
        simp [prevDay, hm]
      rw [hstep, iter_prevDay_within y (m - 1) _ _ (by omega)]
      simp only [CivilDate.mk.injEq, true_and]
      omega
    · have h28 := daysInMonth_ge28 y (m - 1)
      rw [ih y (m - 1) (day + daysInMonth y (m - 1)) (by omega) (by omega) (by omega)
          (by omega)]
      have hsplit : (1 - day).toNat =
          (1 - (day + daysInMonth y (m - 1))).toNat + (daysInMonth y (m - 1)).toNat := by
        omega
      rw [hsplit, Function.iterate_add_apply, prevDay_month_step_mid y m hm]
    · have h28 := daysInMonth_ge28 (y - 1) 12
      have h31 := daysInMonth_dec (y - 1)
      have hsplit : (1 - day).toNat = (-day).toNat + 1 := by omega
      rw [hsplit, Function.iterate_succ_apply]
      have hm1' : m = 1 := by omega
      subst hm1'
      have hstep : prevDay ⟨y, 1, 1⟩ = ⟨y - 1, 12, daysInMonth (y - 1) 12⟩ := by
        simp [prevDay, h31]
      rw [hstep, iter_prevDay_within (y - 1) 12 _ _ (by omega)]
      simp only [CivilDate.mk.injEq, true_and]
      omega
    · have h28 := daysInMonth_ge28 (y - 1) 12
      have hm1' : m = 1 := by omega
      subst hm1'
      rw [ih (y - 1) 12 (day + daysInMonth (y - 1) 12) (by omega) (by omega) (by omega)
          (by omega)]
      have hsplit : (1 - day).toNat =
          (1 - (day + daysInMonth (y - 1) 12)).toNat + (daysInMonth (y - 1) 12).toNat := by
        omega
      rw [hsplit, Function.iterate_add_apply, prevDay_month_step_jan y]

theorem jsAddDays_eq_spec (d : CivilDate) (k : Int) (h : d.Valid) :
    jsAddDays d k = specAddDays d k := by
  obtain ⟨y, m, day⟩ := d
  obtain ⟨hm1, hm2, hd1, hd2⟩ := h
  dsimp only at hm1 hm2 hd1 hd2
  unfold jsAddDays specAddDays
  dsimp only
  by_cases h1 : day + k ≤ 0
  · have hk : ¬ 0 ≤ k := by omega
    rw [if_pos h1, if_neg hk]
    rw [normDown_eq_iter (1 - (day + k)).toNat y m (day + k) le_rfl hm1 hm2 h1]
    have hsplit : (-k).toNat = (1 - (day + k)).toNat + (day - 1).toNat := by omega
    rw [hsplit, Function.iterate_add_apply,
        iter_prevDay_within y m (day - 1).toNat day (by omega)]
    congr 1
    simp only [CivilDate.mk.injEq, true_and]
    omega
  · by_cases h2 : day + k ≤ daysInMonth y m
    · rw [if_neg h1, if_pos h2]
      by_cases hk : 0 ≤ k
      · rw [if_pos hk, iter_nextDay_within y m k.toNat day (by omega)]
        simp only [CivilDate.mk.injEq, true_and]
        omega
      · rw [if_neg hk, iter_prevDay_within y m (-k).toNat day (by omega)]
        simp only [CivilDate.mk.injEq, true_and]
        omega
    · have hk : 0 ≤ k := by omega
      rw [if_neg h1, if_neg h2, if_pos hk]
      rw [normUp_eq_iter (day + k).toNat y m (day + k) le_rfl hm1 hm2 (by omega)]
      have hsplit : (day + k - 1).toNat = k.toNat + (day - 1).toNat := by omega
      rw [hsplit, Function.iterate_add_apply,
          iter_nextDay_within y m (day - 1).toNat 1 (by omega)]
      congr 1
      simp only [CivilDate.mk.injEq, true_and]
      omega

theorem specAddDays_sanity :
    specAddDays ⟨2024, 12, 31⟩ 1 = ⟨2025, 1, 1⟩ ∧ specAddDays ⟨2024, 2, 28⟩ 1 = ⟨2024, 2, 29⟩ ∧
      specAddDays ⟨2024, 1, 1⟩ (-1) = ⟨2023, 12, 31⟩ := by
  refine ⟨by decide, by decide, by decide⟩

theorem configuredOffset_eq_some (o : Option (Option Int)) (k : Int) :
    configuredOffset o = some k ↔ o = some (some k) := by
  rcases o with _ | (_ | n) <;> simp [configuredOffset]

theorem configuredOffset_isNone_iff (o : Option (Option Int)) :
    (configuredOffset o).isNone = true ↔ ∀ k : Int, o ≠ some (some k) := by
  rcases o with _ | (_ | n) <;> simp [configuredOffset]

theorem applyMin_fst_beforeDate (d : CivilDate) (off : Option Int) (p : BlockPayload) :
    (applyMin d off p).1.beforeDate = p.beforeDate := by
  cases off with
  | none => rfl
  | some k =>
    simp only [applyMin]
    split_ifs <;> rfl

theorem applyMax_fst_afterDate (d : CivilDate) (off : Option Int) (p : BlockPayload) :
    (applyMax d off p).1.afterDate = p.afterDate := by
  cases off with
  | none => rfl
  | some k =>
    simp only [applyMax]
    split_ifs <;> rfl

theorem applyMin_fst_afterDate_some (d : CivilDate) (k : Int) (p : BlockPayload) :
    (applyMin d (some k) p).1.afterDate = some (computeBoundary d k) := by
  simp only [applyMin]
  split_ifs with h
  · exact h
  · rfl

theorem applyMax_fst_beforeDate_some (d : CivilDate) (k : Int) (p : BlockPayload) :
    (applyMax d (some k) p).1.beforeDate = some (computeBoundary d k) := by
  simp only [applyMax]
  split_ifs with h
  · exact h
  · rfl

theorem applyMin_of_eq (d : CivilDate) (k : Int) (q : BlockPayload)
    (hq : q.afterDate = some (computeBoundary d k)) : applyMin d (some k) q = (q, false) := by
  simp only [applyMin]
  rw [if_pos hq]

theorem applyMax_of_eq (d : CivilDate) (k : Int) (q : BlockPayload)
    (hq : q.beforeDate = some (computeBoundary d k)) : applyMax d (some k) q = (q, false) := by
  simp only [applyMax]
  rw [if_pos hq]

theorem applyMin_snd_iff (d : CivilDate) (off : Option Int) (p : BlockPayload) :
    (applyMin d off p).2 = true ↔
      ∃ k, off = some k ∧ p.afterDate ≠ some (computeBoundary d k) := by
  cases off with
  | none => simp [applyMin]
  | some k =>
    simp only [applyMin]
    split_ifs with h <;> simp [h]

theorem applyMax_snd_iff (d : CivilDate) (off : Option Int) (p : BlockPayload) :
    (applyMax d off p).2 = true ↔
      ∃ k, off = some k ∧ p.beforeDate ≠ some (computeBoundary d k) := by
  cases off with
  | none => simp [applyMax]
  | some k =>
    simp only [applyMax]
    split_ifs with h <;> simp [h]

theorem updateField_not_date (rules : List (String × FieldRule)) (d : CivilDate) (b : Block)
    (ht : ¬ b.type = "INPUT_DATE") : updateField rules d b = (b, false) := by
  unfold updateField
  rw [if_pos ht]

theorem updateField_no_rule (rules : List (String × FieldRule)) (d : CivilDate) (b : Block)
    (hfr : findRule rules b.uuid = none) : updateField rules d b = (b, false) := by
  unfold updateField
  rw [hfr]
  split_ifs <;> rfl

theorem updateField_inactive (rules : List (String × FieldRule)) (d : CivilDate) (b : Block)
    (fc : FieldRule) (hfr : findRule rules b.uuid = some fc)
    (h : fc.enabled = false ∨
      (configuredOffset fc.minDays = none ∧ configuredOffset fc.maxDays = none)) :
    updateField rules d b = (b, false) := by
  unfold updateField
  rw [hfr]
  split_ifs with ht
  · rfl
  · rcases h with he | ⟨h1, h2⟩
    · simp [he]
    · by_cases he : fc.enabled = false
      · simp [he]
      · simp [he, h1, h2]

theorem updateField_active (rules : List (String × FieldRule)) (d : CivilDate) (b : Block)
    (fc : FieldRule) (ht : b.type = "INPUT_DATE") (hfr : findRule rules b.uuid = some fc)
    (he : fc.enabled = true)
    (hoff : ¬((configuredOffset fc.minDays).isNone = true ∧
              (configuredOffset fc.maxDays).isNone = true)) :
    updateField rules d b =
      ({ b with payload := (applyMax d (configuredOffset fc.maxDays)
          ((applyMin d (configuredOffset fc.minDays) b.payload).1)).1 },
       (applyMin d (configuredOffset fc.minDays) b.payload).2
         || (applyMax d (configuredOffset fc.maxDays)
              ((applyMin d (configuredOffset fc.minDays) b.payload).1)).2) := by
  unfold updateField
  rw [if_neg (by simp [ht]), hfr]
  dsimp only
  rw [if_neg (by simp [he]), if_neg (by simpa [Bool.and_eq_true] using hoff)]

theorem updateField_unchanged (rules : List (String × FieldRule)) (d : CivilDate) (fc : FieldRule)
    (b2 : Block) (ht : b2.type = "INPUT_DATE") (hfr : findRule rules b2.uuid = some fc)
    (heq : fc.enabled = true)
    (hoff : ¬((configuredOffset fc.minDays).isNone = true ∧
              (configuredOffset fc.maxDays).isNone = true))
    (hmin : ∀ k, configuredOffset fc.minDays = some k →
      b2.payload.afterDate = some (computeBoundary d k))
    (hmax : ∀ k, configuredOffset fc.maxDays = some k →
      b2.payload.beforeDate = some (computeBoundary d k)) :
    updateField rules d b2 = (b2, false) := by
  rw [updateField_active rules d b2 fc ht hfr heq hoff]
  have h1 : applyMin d (configuredOffset fc.minDays) b2.payload = (b2.payload, false) := by
    cases hco : configuredOffset fc.minDays with
    | none => rfl
    | some k => exact applyMin_of_eq d k _ (hmin k hco)
  rw [h1]
  dsimp only
  have h2 : applyMax d (configuredOffset fc.maxDays) b2.payload = (b2.payload, false) := by
    cases hco : configuredOffset fc.maxDays with
    | none => rfl
    | some k => exact applyMax_of_eq d k _ (hmax k hco)
  rw [h2]
  simp

theorem updateField_stable (rules : List (String × FieldRule)) (d : CivilDate) (b : Block) :
    updateField rules d ((updateField rules d b).1) = ((updateField rules d b).1, false) := by
  by_cases ht : b.type = "INPUT_DATE"
  · cases hfr : findRule rules b.uuid with
    | none =>
      rw [updateField_no_rule rules d b hfr]
      exact updateField_no_rule rules d b hfr
    | some fc =>
      by_cases he : fc.enabled = false
      · rw [updateField_inactive rules d b fc hfr (Or.inl he)]
        exact updateField_inactive rules d b fc hfr (Or.inl he)
      · have heq : fc.enabled = true := by revert he; cases fc.enabled <;> simp
        by_cases hoff : (configuredOffset fc.minDays).isNone = true ∧
            (configuredOffset fc.maxDays).isNone = true
        · have hskip := updateField_inactive rules d b fc hfr
            (Or.inr ⟨Option.isNone_iff_eq_none.mp hoff.1, Option.isNone_iff_eq_none.mp hoff.2⟩)
          rw [hskip]
          exact hskip
        · rw [updateField_active rules d b fc ht hfr heq hoff]
          dsimp only
          refine updateField_unchanged rules d fc _ ht hfr heq hoff ?_ ?_
          · intro k hco
            show ((applyMax d (configuredOffset fc.maxDays)
              ((applyMin d (configuredOffset fc.minDays) b.payload).1)).1).afterDate =
                some (computeBoundary d k)
            rw [applyMax_fst_afterDate, hco]
            exact applyMin_fst_afterDate_some d k b.payload
          · intro k hco
            show ((applyMax d (configuredOffset fc.maxDays)
              ((applyMin d (configuredOffset fc.minDays) b.payload).1)).1).beforeDate =
                some (computeBoundary d k)
            rw [hco]
            exact applyMax_fst_beforeDate_some d k _
  · rw [updateField_not_date rules d b ht]
    exact updateField_not_date rules d b ht

theorem updateField_snd_iff (rules : List (String × FieldRule)) (d : CivilDate) (b : Block) :
    (updateField rules d b).2 = true ↔
      b.type = "INPUT_DATE" ∧ ∃ fc, findRule rules b.uuid = some fc ∧ fc.enabled = true ∧
        ((∃ k, fc.minDays = some (some k) ∧ b.payload.afterDate ≠ some (computeBoundary d k)) ∨
         (∃ k, fc.maxDays = some (some k) ∧
           b.payload.beforeDate ≠ some (computeBoundary d k))) := by
  by_cases ht : b.type = "INPUT_DATE"
  · cases hfr : findRule rules b.uuid with
    | none => simp [updateField_no_rule rules d b hfr, hfr]
    | some fc =>
      by_cases he : fc.enabled = false
      · simp [updateField_inactive rules d b fc hfr (Or.inl he), ht, hfr, he]
      · have heq : fc.enabled = true := by revert he; cases fc.enabled <;> simp
        by_cases hoff : (configuredOffset fc.minDays).isNone = true ∧
            (configuredOffset fc.maxDays).isNone = true
        · have h1 : configuredOffset fc.minDays = none := Option.isNone_iff_eq_none.mp hoff.1
          have h2 : configuredOffset fc.maxDays = none := Option.isNone_iff_eq_none.mp hoff.2
          rw [updateField_inactive rules d b fc hfr (Or.inr ⟨h1, h2⟩)]
          simp only [ht, hfr, heq, true_and, Option.some.injEq]
          constructor
          · intro hfalse
            simp at hfalse
          · rintro ⟨fc2, hfc2, _, (⟨k, hk, _⟩ | ⟨k, hk, _⟩)⟩
            · subst hfc2
              rw [← configuredOffset_eq_some fc.minDays k] at hk
              simp [h1] at hk
            · subst hfc2
              rw [← configuredOffset_eq_some fc.maxDays k] at hk
              simp [h2] at hk
        · rw [updateField_active rules d b fc ht hfr heq hoff]
          dsimp only
          rw [Bool.or_eq_true, applyMin_snd_iff, applyMax_snd_iff, applyMin_fst_beforeDate]
          simp only [ht, hfr, heq, true_and, Option.some.injEq]
          constructor
          · rintro (⟨k, hk, hne⟩ | ⟨k, hk, hne⟩)
            · exact ⟨fc, rfl, heq, Or.inl ⟨k, (configuredOffset_eq_some _ _).mp hk, hne⟩⟩
            · exact ⟨fc, rfl, heq, Or.inr ⟨k, (configuredOffset_eq_some _ _).mp hk, hne⟩⟩
          · rintro ⟨fc2, hfc2, _, (⟨k, hk, hne⟩ | ⟨k, hk, hne⟩)⟩
            · subst hfc2
              exact Or.inl ⟨k, (configuredOffset_eq_some _ _).mpr hk, hne⟩
            · subst hfc2
              exact Or.inr ⟨k, (configuredOffset_eq_some _ _).mpr hk, hne⟩
  · simp [updateField_not_date rules d b ht, ht]

theorem findRule_mem (rules : List (String × FieldRule)) (u : String) (fc : FieldRule)
    (h : findRule rules u = some fc) : ∃ u2, (u2, fc) ∈ rules := by
  induction rules with
  | nil => simp [findRule] at h
  | cons p rest ih =>
    obtain ⟨u0, r0⟩ := p
    unfold findRule at h
    split_ifs at h with hu
    · refine ⟨u0, ?_⟩
      simp only [Option.some.injEq] at h
      simp [h]
    · obtain ⟨u2, hm⟩ := ih h
      exact ⟨u2, List.mem_cons_of_mem _ hm⟩

theorem updateField_allskip (rules : List (String × FieldRule)) (d : CivilDate) (b : Block)
    (h : ∀ p ∈ rules, p.2.enabled = false ∨
      (configuredOffset p.2.minDays = none ∧ configuredOffset p.2.maxDays = none)) :
    updateField rules d b = (b, false) := by
  by_cases ht : b.type = "INPUT_DATE"
  · cases hfr : findRule rules b.uuid with
    | none => exact updateField_no_rule rules d b hfr
    | some fc =>
      obtain ⟨u2, hm⟩ := findRule_mem rules b.uuid fc hfr
      exact updateField_inactive rules d b fc hfr (h (u2, fc) hm)
  · exact updateField_not_date rules d b ht

theorem updateBlocks_allskip (rules : List (String × FieldRule)) (d : CivilDate)
    (h : ∀ p ∈ rules, p.2.enabled = false ∨
      (configuredOffset p.2.minDays = none ∧ configuredOffset p.2.maxDays = none)) :
    ∀ bs, updateBlocks rules d bs = (bs, false) := by
  intro bs
  induction bs with
  | nil => rfl
  | cons b bs ih =>
    simp only [updateBlocks]
    rw [updateField_allskip rules d b h, ih]
    rfl

theorem updateBlocks_stable (rules : List (String × FieldRule)) (d : CivilDate) :
    ∀ bs, updateBlocks rules d ((updateBlocks rules d bs).1) =
      ((updateBlocks rules d bs).1, false) := by
  intro bs
  induction bs with
  | nil => rfl
  | cons b bs ih =>
    simp only [updateBlocks]
    rw [updateField_stable rules d b, ih]
    rfl

theorem updateFormDateLimits_allskip (cfg : StoredConfig) (d : CivilDate) (bs : List Block)
    (h : ∀ p ∈ cfg.fields, p.2.enabled = false ∨
      (configuredOffset p.2.minDays = none ∧ configuredOffset p.2.maxDays = none)) :
    updateFormDateLimits cfg d bs = ⟨false, bs⟩ := by
  unfold updateFormDateLimits
  rw [updateBlocks_allskip cfg.fields d h bs]
  rfl

theorem updateFormDateLimits_idem (cfg : StoredConfig) (d : CivilDate) (bs : List Block) :
    updateFormDateLimits cfg d (updateFormDateLimits cfg d bs).blocks =
      ⟨false, (updateFormDateLimits cfg d bs).blocks⟩ := by
  by_cases hr : (updateBlocks cfg.fields d bs).2 = true
  · have e1 : updateFormDateLimits cfg d bs = ⟨true, (updateBlocks cfg.fields d bs).1⟩ := by
      unfold updateFormDateLimits
      rw [if_pos hr]
    rw [e1]
    unfold updateFormDateLimits
    rw [updateBlocks_stable cfg.fields d bs]
    rfl
  · have e0 : updateFormDateLimits cfg d bs = ⟨false, bs⟩ := by
      unfold updateFormDateLimits
      rw [if_neg hr]
    rw [e0]
    unfold updateFormDateLimits
    rw [if_neg hr]

theorem runPatch_preserves_config (cfg : StoredConfig) (d : CivilDate) (w : World)
    (r : Bool × World) (h : runPatch cfg d w = Except.ok r) :
    r.2.config = w.config ∧ r.2.rate = w.rate := by
  unfold runPatch at h
  cases hw : w.remoteForm with
  | error e =>
    rw [hw] at h
    exact absurd h (by simp)
  | ok blocks =>
    rw [hw] at h
    dsimp only at h
    split_ifs at h <;>
      (simp only [Except.ok.injEq] at h
       rw [← h]
       exact ⟨rfl, rfl⟩)

theorem hasActiveFields_false_of_all_disabled (fields : List (String × FieldRule))
    (h : ∀ p ∈ fields, p.2.enabled = false) : hasActiveFields fields = false := by
  unfold hasActiveFields
  rw [List.any_eq_false]
  intro p hp
  simp [h p hp]

/-- Claim C1 (counterexample): the claim quantifies over *every*
configuration and asserts that when no matching metadata record exists
the decision is due; but `shouldUpdateNow` returns not-due for a
disabled configuration even with no stored metadata at all
(src/index.js lines 469-472). -/
theorem claim_c1_counterexample :
    (¬ ∃ md : RunMetadata, (none : Option RunMetadata) = some md ∧
        md.lastUpdateDate = formatDate ⟨2024, 3, 10⟩ ∧ md.lastUpdateHour = 5) ∧
    (shouldUpdateNow ⟨"key", "form1", "UTC", [], none, true, 0⟩
        ⟨2024, 3, 10⟩ 5 none).1 = false := by
  constructor
  · rintro ⟨md, hmd, _⟩
    exact Option.noConfusion hmd
  · rfl

/-- Claim C1 (amended: restricted to configurations that are not
disabled): `shouldUpdateNow` returns not-due exactly when a metadata
record matching today's local date and the current local hour exists;
otherwise it is due and persists metadata carrying that local hour and
date; the decision immediately after any call at the same (date, hour)
is not-due — at most one due decision per (local date, local hour) —
and the cron step records the metadata decided before the patch,
whatever the patch outcome. -/
theorem claim_c1_amended (c : StoredConfig) (d : CivilDate) (h : Int)
    (meta : Option RunMetadata) (hact : c.disabled = false) :
    ((shouldUpdateNow c d h meta).1 = false ↔
      ∃ md, meta = some md ∧ md.lastUpdateDate = formatDate d ∧ md.lastUpdateHour = h) ∧
    ((shouldUpdateNow c d h meta).1 = true →
      (shouldUpdateNow c d h meta).2 = some ⟨h, formatDate d, c.timezone⟩) ∧
    (shouldUpdateNow c d h ((shouldUpdateNow c d h meta).2) =
      (false, (shouldUpdateNow c d h meta).2)) ∧
    (∀ w, (runCronStep c d h meta w).1 = (shouldUpdateNow c d h meta).2) := by
  have hnd : ¬ (c.disabled = true) := by simp [hact]
  have hrc : ∀ w, (runCronStep c d h meta w).1 = (shouldUpdateNow c d h meta).2 := by
    intro w
    unfold runCronStep
    dsimp only
    split_ifs <;> rfl
  cases meta with
  | none =>
    have e : shouldUpdateNow c d h none = (true, some ⟨h, formatDate d, c.timezone⟩) := by
      unfold shouldUpdateNow
      rw [if_neg hnd]
    refine ⟨?_, ?_, ?_, hrc⟩
    · rw [e]
      simp
    · intro _
      rw [e]
    · rw [e]
      unfold shouldUpdateNow
      rw [if_neg hnd]
      simp
  | some md =>
    by_cases hm : md.lastUpdateDate = formatDate d ∧ md.lastUpdateHour = h
    · have e : shouldUpdateNow c d h (some md) = (false, some md) := by
        unfold shouldUpdateNow
        rw [if_neg hnd]
        simp only [hm, and_self, if_true]
      refine ⟨?_, ?_, ?_, hrc⟩
      · rw [e]
        simp only [true_iff]
        exact ⟨md, rfl, hm⟩
      · intro hcontra
        rw [e] at hcontra
        simp at hcontra
      · rw [e]
        unfold shouldUpdateNow
        rw [if_neg hnd]
        simp only [hm, and_self, if_true]
    · have e : shouldUpdateNow c d h (some md) =
          (true, some ⟨h, formatDate d, c.timezone⟩) := by
        unfold shouldUpdateNow
        rw [if_neg hnd]
        simp only [hm, if_false]
      refine ⟨?_, ?_, ?_, hrc⟩
      · rw [e]
        simp only [Bool.true_eq_false, false_iff]
        rintro ⟨md2, hmd2, hrest⟩
        simp only [Option.some.injEq] at hmd2
        rw [hmd2] at hm
        exact hm hrest
      · intro _
        rw [e]
      · rw [e]
        unfold shouldUpdateNow
        rw [if_neg hnd]
        simp

/-- Claim C1 (witness): the amended scheduling characterisation applied
to a concrete non-disabled configuration. -/
theorem claim_c1_amended_witness :
    (StoredConfig.disabled ⟨"key", "form1", "UTC", [], none, false, 0⟩ = false) ∧
    (((shouldUpdateNow ⟨"key", "form1", "UTC", [], none, false, 0⟩ ⟨2024, 3, 10⟩ 5 none).1
        = false ↔
      ∃ md, (none : Option RunMetadata) = some md ∧
        md.lastUpdateDate = formatDate ⟨2024, 3, 10⟩ ∧ md.lastUpdateHour = 5) ∧
    ((shouldUpdateNow ⟨"key", "form1", "UTC", [], none, false, 0⟩ ⟨2024, 3, 10⟩ 5 none).1
        = true →
      (shouldUpdateNow ⟨"key", "form1", "UTC", [], none, false, 0⟩
        ⟨2024, 3, 10⟩ 5 none).2 = some ⟨5, formatDate ⟨2024, 3, 10⟩, "UTC"⟩) ∧
    (shouldUpdateNow ⟨"key", "form1", "UTC", [], none, false, 0⟩ ⟨2024, 3, 10⟩ 5
      ((shouldUpdateNow ⟨"key", "form1", "UTC", [], none, false, 0⟩
        ⟨2024, 3, 10⟩ 5 none).2) =
      (false, (shouldUpdateNow ⟨"key", "form1", "UTC", [], none, false, 0⟩
        ⟨2024, 3, 10⟩ 5 none).2)) ∧
    (∀ w, (runCronStep ⟨"key", "form1", "UTC", [], none, false, 0⟩
        ⟨2024, 3, 10⟩ 5 none w).1 =
      (shouldUpdateNow ⟨"key", "form1", "UTC", [], none, false, 0⟩
        ⟨2024, 3, 10⟩ 5 none).2)) :=
  ⟨rfl, claim_c1_amended ⟨"key", "form1", "UTC", [], none, false, 0⟩ ⟨2024, 3, 10⟩ 5 none rfl⟩

/-- Claim C2: for every valid local calendar date of "now" and every
signed day offset, the `setDate`-based arithmetic of the code equals the
specification's "add `offsetDays` whole days" (iterated calendar
successor/predecessor, so month and year rollover are correct and the
sign of the offset is immaterial), the result is again a valid calendar
date, and the emitted boundary string is that date formatted
`YYYY-MM-DD`.  The timezone conversion itself is abstracted: `d` is the
local year/month/day of "now" in the configuration's IANA timezone. -/
theorem claim_c2_boundary (d : CivilDate) (k : Int) (h : d.Valid) :
    jsAddDays d k = specAddDays d k ∧ (specAddDays d k).Valid ∧
      computeBoundary d k = formatDate (specAddDays d k) := by
  refine ⟨jsAddDays_eq_spec d k h, specAddDays_valid k h, ?_⟩
  unfold computeBoundary
  rw [jsAddDays_eq_spec d k h]

/-- Claim C2 (witness): the boundary correctness instantiated at the
valid date 2024-01-31 with offset -40 (a month and year rollover). -/
theorem claim_c2_boundary_witness :
    (CivilDate.Valid ⟨2024, 1, 31⟩) ∧
    (jsAddDays ⟨2024, 1, 31⟩ (-40) = specAddDays ⟨2024, 1, 31⟩ (-40) ∧
      (specAddDays ⟨2024, 1, 31⟩ (-40)).Valid ∧
      computeBoundary ⟨2024, 1, 31⟩ (-40) = formatDate (specAddDays ⟨2024, 1, 31⟩ (-40))) :=
  ⟨by decide, claim_c2_boundary ⟨2024, 1, 31⟩ (-40) (by decide)⟩

/-- Claim C3: the patcher marks a field changed exactly when one of its
configured boundaries differs from the current remote value, and
re-running the whole patch computation on the blocks resulting from a
successful run changes nothing and reports `written = false`
(idempotence for a fixed "now" and configuration). -/
theorem claim_c3_patch_idempotent (cfg : StoredConfig) (d : CivilDate) (bs : List Block) :
    (∀ b : Block, (updateField cfg.fields d b).2 = true ↔
      b.type = "INPUT_DATE" ∧ ∃ fc, findRule cfg.fields b.uuid = some fc ∧
        fc.enabled = true ∧
        ((∃ k, fc.minDays = some (some k) ∧
            b.payload.afterDate ≠ some (computeBoundary d k)) ∨
         (∃ k, fc.maxDays = some (some k) ∧
            b.payload.beforeDate ≠ some (computeBoundary d k)))) ∧
    updateFormDateLimits cfg d (updateFormDateLimits cfg d bs).blocks =
      ⟨false, (updateFormDateLimits cfg d bs).blocks⟩ :=
  ⟨fun b => updateField_snd_iff cfg.fields d b, updateFormDateLimits_idem cfg d bs⟩

/-- Claim C4: the patcher never touches a date field whose rule is
absent, disabled, or has both offsets null; and when every rule of the
configuration is disabled or fully null, the whole patch computation
writes nothing (`written = false`) and leaves every remote block
exactly as read, whatever the remote values are. -/
theorem claim_c4_frame (cfg : StoredConfig) (d : CivilDate) (bs : List Block) (b : Block) :
    ((findRule cfg.fields b.uuid = none ∨
      (∃ fc, findRule cfg.fields b.uuid = some fc ∧
        (fc.enabled = false ∨ (fc.minDays = some none ∧ fc.maxDays = some none)))) →
      updateField cfg.fields d b = (b, false)) ∧
    ((∀ p ∈ cfg.fields, p.2.enabled = false ∨
        (p.2.minDays = some none ∧ p.2.maxDays = some none)) →
      updateFormDateLimits cfg d bs = ⟨false, bs⟩) := by
  constructor
  · rintro (hfr | ⟨fc, hfr, hcond⟩)
    · exact updateField_no_rule cfg.fields d b hfr
    · refine updateField_inactive cfg.fields d b fc hfr ?_
      rcases hcond with he | ⟨h1, h2⟩
      · exact Or.inl he
      · exact Or.inr ⟨by rw [h1]; rfl, by rw [h2]; rfl⟩
  · intro h
    refine updateFormDateLimits_allskip cfg d bs ?_
    intro p hp
    rcases h p hp with he | ⟨h1, h2⟩
    · exact Or.inl he
    · exact Or.inr ⟨by rw [h1]; rfl, by rw [h2]; rfl⟩

/-- Claim C4 (witness): the frame property applied to a concrete
disabled rule and a concrete configuration whose rules are all disabled
or fully null. -/
theorem claim_c4_frame_witness :
    updateField [("u1", ⟨false, some (some 3), some none⟩)] ⟨2024, 3, 10⟩
        ⟨"INPUT_DATE", "u1", ⟨some "2020-01-01", none⟩⟩ =
      (⟨"INPUT_DATE", "u1", ⟨some "2020-01-01", none⟩⟩, false) ∧
    updateFormDateLimits
        ⟨"k", "f", "UTC", [("u1", ⟨false, some (some 3), some none⟩),
          ("u2", ⟨true, some none, some none⟩)], none, false, 0⟩ ⟨2024, 3, 10⟩
        [⟨"INPUT_DATE", "u1", ⟨some "2020-01-01", none⟩⟩,
         ⟨"INPUT_DATE", "u2", ⟨none, some "2020-01-01"⟩⟩] =
      ⟨false, [⟨"INPUT_DATE", "u1", ⟨some "2020-01-01", none⟩⟩,
        ⟨"INPUT_DATE", "u2", ⟨none, some "2020-01-01"⟩⟩]⟩ := by
  constructor
  · exact (claim_c4_frame ⟨"k", "f", "UTC", [("u1", ⟨false, some (some 3), some none⟩)],
      none, false, 0⟩ ⟨2024, 3, 10⟩ [] ⟨"INPUT_DATE", "u1", ⟨some "2020-01-01", none⟩⟩).1
      (Or.inr ⟨⟨false, some (some 3), some none⟩, by decide, Or.inl rfl⟩)
  · exact (claim_c4_frame ⟨"k", "f", "UTC", [("u1", ⟨false, some (some 3), some none⟩),
      ("u2", ⟨true, some none, some none⟩)], none, false, 0⟩ ⟨2024, 3, 10⟩
      [⟨"INPUT_DATE", "u1", ⟨some "2020-01-01", none⟩⟩,
       ⟨"INPUT_DATE", "u2", ⟨none, some "2020-01-01"⟩⟩]
      ⟨"INPUT_DATE", "u1", ⟨some "2020-01-01", none⟩⟩).2 (by decide)

/-- Claim C5: `checkRateLimit` is read-only (it is a pure function of
the stored counter) and allows exactly the states where the counter is
absent or below 5; `incrementRateLimit` increments and persists exactly
when the current count is below the ceiling 5 and otherwise fails with
the quota message without touching the state; chaining attempts from an
absent counter, 5 reservations succeed (reaching count 5) and the 6th
is rejected. -/
theorem claim_c5_rate_limit (r : Option Nat) :
    (checkRateLimit r = true ↔ r.getD 0 < 5) ∧
    (r.getD 0 < 5 → incrementRateLimit r = Except.ok (some (r.getD 0 + 1))) ∧
    (5 ≤ r.getD 0 → incrementRateLimit r = Except.error rateLimitErrorMsg) ∧
    reserveRepeatedly 5 none = Except.ok (some 5) ∧
    reserveRepeatedly 6 none = Except.error rateLimitErrorMsg := by
  refine ⟨?_, ?_, ?_, rfl, rfl⟩
  · cases r with
    | none => simp [checkRateLimit]
    | some n => simp [checkRateLimit]
  · intro h
    unfold incrementRateLimit
    rw [if_neg (by omega)]
  · intro h
    unfold incrementRateLimit
    rw [if_pos h]

/-- Claim C5 (witness): the rate-limit behaviour at counts 3 and 7. -/
theorem claim_c5_rate_limit_witness :
    incrementRateLimit (some 3) = Except.ok (some 4) ∧
    incrementRateLimit (some 7) = Except.error rateLimitErrorMsg ∧
    checkRateLimit (some 3) = true := by
  refine ⟨(claim_c5_rate_limit (some 3)).2.1 (by decide),
    (claim_c5_rate_limit (some 7)).2.2.1 (by decide),
    (claim_c5_rate_limit (some 3)).1.mpr (by decide)⟩

/-- Claim C9: for a field with offsets `minDays = -30`, `maxDays = 0`
and any instant whose New York local calendar date is 2024-03-10, the
computed earliest-selectable boundary is "2024-02-09" and the
latest-selectable boundary is "2024-03-10" (the timezone conversion is
abstracted to that local date). -/
theorem claim_c9_newyork_dates :
    computeBoundary ⟨2024, 3, 10⟩ (-30) = "2024-02-09" ∧
    computeBoundary ⟨2024, 3, 10⟩ 0 = "2024-03-10" := by
  constructor
  · unfold computeBoundary
    rw [jsAddDays_eq_spec _ _ (by decide)]
    decide
  · unfold computeBoundary
    rw [jsAddDays_eq_spec _ _ (by decide)]
    decide

theorem runPatch_noop (cfg : StoredConfig) (d : CivilDate) (w : World)
    (hnoop : ∀ bs, updateFormDateLimits cfg d bs = ⟨false, bs⟩) :
    (∃ e, w.remoteForm = Except.error e ∧ runPatch cfg d w = Except.error e) ∨
    runPatch cfg d w = Except.ok (false, w) := by
  unfold runPatch
  cases hrf : w.remoteForm with
  | error e => exact Or.inl ⟨e, rfl, rfl⟩
  | ok blocks =>
    right
    dsimp only
    rw [hnoop blocks]
    simp

theorem handleSaveConfig_active_ok (req : SaveRequest) (d : CivilDate) (nowMs : Int)
    (w : World) (rate2 : Option Nat)
    (hk : ¬ req.apiKey = "") (hf : ¬ req.formId = "") (hz : ¬ req.timezone = "")
    (ha : hasActiveFields req.fields = true)
    (hrs : (match w.config with
      | some _ => Except.ok w.rate
      | none => incrementRateLimit w.rate) = Except.ok rate2) :
    (handleSaveConfig req d nowMs w).1 = SaveResult.ok ∧
    (handleSaveConfig req d nowMs w).2.config =
      some (⟨req.apiKey, req.formId, req.timezone, req.fields, none, false, nowMs⟩, none) ∧
    (handleSaveConfig req d nowMs w).2.rate = rate2 := by
  unfold handleSaveConfig
  rw [if_neg (by simp [hk, hf, hz]), hrs]
  dsimp only
  rw [if_neg (by simp [ha])]
  simp only [ha, Bool.not_true]
  split
  · exact ⟨rfl, rfl, rfl⟩
  · rename_i pr heq
    have hpc := runPatch_preserves_config _ _ _ _ heq
    exact ⟨rfl, by rw [hpc.1], by rw [hpc.2]⟩

theorem handleSaveConfig_inactive_ok (req : SaveRequest) (d : CivilDate) (nowMs : Int)
    (w : World) (rate2 : Option Nat)
    (hk : ¬ req.apiKey = "") (hf : ¬ req.formId = "") (hz : ¬ req.timezone = "")
    (ha : hasActiveFields req.fields = false)
    (hrs : (match w.config with
      | some _ => Except.ok w.rate
      | none => incrementRateLimit w.rate) = Except.ok rate2) :
    handleSaveConfig req d nowMs w = (SaveResult.ok,
      { w with config := some (⟨req.apiKey, req.formId, req.timezone, req.fields,
          none, true, nowMs⟩, some 259200), rate := rate2 }) := by
  unfold handleSaveConfig
  rw [if_neg (by simp [hk, hf, hz]), hrs]
  dsimp only
  rw [if_pos ha]
  simp only [ha, Bool.not_false]

theorem handleSaveConfig_active_noop (req : SaveRequest) (d : CivilDate) (nowMs : Int)
    (w : World) (rate2 : Option Nat)
    (hk : ¬ req.apiKey = "") (hf : ¬ req.formId = "") (hz : ¬ req.timezone = "")
    (ha : hasActiveFields req.fields = true)
    (hrs : (match w.config with
      | some _ => Except.ok w.rate
      | none => incrementRateLimit w.rate) = Except.ok rate2)
    (hnoop : ∀ bs, updateFormDateLimits
      ⟨req.apiKey, req.formId, req.timezone, req.fields, none, false, nowMs⟩ d bs =
        ⟨false, bs⟩) :
    handleSaveConfig req d nowMs w = (SaveResult.ok,
      { w with config := some (⟨req.apiKey, req.formId, req.timezone, req.fields,
          none, false, nowMs⟩, none), rate := rate2 }) := by
  unfold handleSaveConfig
  rw [if_neg (by simp [hk, hf, hz]), hrs]
  dsimp only
  rw [if_neg (by simp [ha])]
  simp only [ha, Bool.not_true]
  rcases runPatch_noop ⟨req.apiKey, req.formId, req.timezone, req.fields, none, false, nowMs⟩
      d { w with config := some (⟨req.apiKey, req.formId, req.timezone, req.fields,
        none, false, nowMs⟩, none), rate := rate2 } hnoop with ⟨e, _, hre⟩ | hok
  · rw [hre]
  · rw [hok]

/-- Claim C6: a save request creating a brand-new configuration while
the requester's counter is at or above the ceiling 5 is rejected before
any side effect: the whole state (stored configuration, counter, remote
form) is returned unchanged, and the response carries the distinct
quota message thrown by `incrementRateLimit`. -/
theorem claim_c6_quota_rejected (req : SaveRequest) (d : CivilDate) (nowMs : Int)
    (w : World) (n : Nat)
    (hk : ¬ req.apiKey = "") (hf : ¬ req.formId = "") (hz : ¬ req.timezone = "")
    (hnew : w.config = none) (hrate : w.rate = some n) (hceil : 5 ≤ n) :
    handleSaveConfig req d nowMs w = (SaveResult.err 500 rateLimitErrorMsg, w) := by
  have hinc : incrementRateLimit w.rate = Except.error rateLimitErrorMsg := by
    unfold incrementRateLimit
    rw [if_pos (by rw [hrate]; simpa using hceil)]
  unfold handleSaveConfig
  rw [if_neg (by simp [hk, hf, hz]), hnew]
  dsimp only
  rw [hinc]

/-- Claim C6 (witness): a new-configuration save at counter 5 is
rejected with the quota message and leaves the state untouched. -/
theorem claim_c6_quota_rejected_witness :
    handleSaveConfig ⟨"k", "f", "UTC", []⟩ ⟨2024, 3, 10⟩ 0
        ⟨none, some 5, Except.error "down", true⟩ =
      (SaveResult.err 500 rateLimitErrorMsg, ⟨none, some 5, Except.error "down", true⟩) :=
  claim_c6_quota_rejected ⟨"k", "f", "UTC", []⟩ ⟨2024, 3, 10⟩ 0
    ⟨none, some 5, Except.error "down", true⟩ 5
    (by decide) (by decide) (by decide) rfl rfl (by decide)

/-- Claim C7: on the immediate-apply path (valid save, quota available
or existing configuration, at least one active field), whatever the
patch outcome — remote read failure, failing write, successful write or
no-op — the save handler reports success and the configuration is
persisted (stored without expiry, marked not disabled). -/
theorem claim_c7_patch_failure_never_aborts_save (req : SaveRequest) (d : CivilDate)
    (nowMs : Int) (w : World)
    (hk : ¬ req.apiKey = "") (hf : ¬ req.formId = "") (hz : ¬ req.timezone = "")
    (hq : w.config.isSome = true ∨ w.rate.getD 0 < 5)
    (ha : hasActiveFields req.fields = true) :
    (handleSaveConfig req d nowMs w).1 = SaveResult.ok ∧
    (handleSaveConfig req d nowMs w).2.config =
      some (⟨req.apiKey, req.formId, req.timezone, req.fields, none, false, nowMs⟩, none) := by
  cases hw : w.config with
  | none =>
    have hr : w.rate.getD 0 < 5 := by
      rcases hq with hs | hlt
      · rw [hw] at hs
        simp at hs
      · exact hlt
    have h1 := handleSaveConfig_active_ok req d nowMs w (some (w.rate.getD 0 + 1))
      hk hf hz ha (by
        rw [hw]
        show incrementRateLimit w.rate = Except.ok (some (w.rate.getD 0 + 1))
        unfold incrementRateLimit
        rw [if_neg (by omega)])
    exact ⟨h1.1, h1.2.1⟩
  | some c0 =>
    have h1 := handleSaveConfig_active_ok req d nowMs w w.rate hk hf hz ha (by rw [hw])
    exact ⟨h1.1, h1.2.1⟩

/-- Claim C7 (witness): a save whose immediate patch fails to even read
the remote form still succeeds and persists the configuration. -/
theorem claim_c7_patch_failure_never_aborts_save_witness :
    (handleSaveConfig ⟨"k", "f", "UTC", [("u1", ⟨true, some (some (-30)), some (some 0)⟩)]⟩
        ⟨2024, 3, 10⟩ 0 ⟨none, none, Except.error "gateway down", false⟩).1 =
      SaveResult.ok ∧
    (handleSaveConfig ⟨"k", "f", "UTC", [("u1", ⟨true, some (some (-30)), some (some 0)⟩)]⟩
        ⟨2024, 3, 10⟩ 0 ⟨none, none, Except.error "gateway down", false⟩).2.config =
      some (⟨"k", "f", "UTC", [("u1", ⟨true, some (some (-30)), some (some 0)⟩)],
        none, false, 0⟩, none) :=
  claim_c7_patch_failure_never_aborts_save
    ⟨"k", "f", "UTC", [("u1", ⟨true, some (some (-30)), some (some 0)⟩)]⟩
    ⟨2024, 3, 10⟩ 0 ⟨none, none, Except.error "gateway down", false⟩
    (by decide) (by decide) (by decide) (Or.inr (by decide)) (by decide)

/-- Claim C8: a valid save request whose rules are all disabled stores
the configuration marked `disabled = true` with the 3-day expiry, and
the scheduling decision for that stored configuration returns not-due
for every later local date, hour, and metadata state, leaving the
metadata unchanged. -/
theorem claim_c8_all_disabled_save (req : SaveRequest) (d : CivilDate) (nowMs : Int)
    (w : World)
    (hk : ¬ req.apiKey = "") (hf : ¬ req.formId = "") (hz : ¬ req.timezone = "")
    (hq : w.config.isSome = true ∨ w.rate.getD 0 < 5)
    (hall : ∀ p ∈ req.fields, p.2.enabled = false) :
    (∃ rate2, handleSaveConfig req d nowMs w = (SaveResult.ok,
      { w with config := some (⟨req.apiKey, req.formId, req.timezone, req.fields,
          none, true, nowMs⟩, some 259200), rate := rate2 })) ∧
    (∀ (d2 : CivilDate) (h2 : Int) (m2 : Option RunMetadata),
      shouldUpdateNow ⟨req.apiKey, req.formId, req.timezone, req.fields, none, true, nowMs⟩
        d2 h2 m2 = (false, m2)) := by
  have ha := hasActiveFields_false_of_all_disabled req.fields hall
  constructor
  · cases hw : w.config with
    | none =>
      have hr : w.rate.getD 0 < 5 := by
        rcases hq with hs | hlt
        · rw [hw] at hs
          simp at hs
        · exact hlt
      exact ⟨some (w.rate.getD 0 + 1), handleSaveConfig_inactive_ok req d nowMs w
        (some (w.rate.getD 0 + 1)) hk hf hz ha (by
          rw [hw]
          show incrementRateLimit w.rate = Except.ok (some (w.rate.getD 0 + 1))
          unfold incrementRateLimit
          rw [if_neg (by omega)])⟩
    | some c0 =>
      exact ⟨w.rate, handleSaveConfig_inactive_ok req d nowMs w w.rate hk hf hz ha
        (by rw [hw])⟩
  · intro d2 h2 m2
    unfold shouldUpdateNow
    rw [if_pos rfl]

/-- Claim C8 (witness): a save with one disabled rule stores a disabled
configuration and the scheduler never fires for it. -/
theorem claim_c8_all_disabled_save_witness :
    (∃ rate2, handleSaveConfig ⟨"k", "f", "UTC", [("u1", ⟨false, some (some 3), none⟩)]⟩
        ⟨2024, 3, 10⟩ 0 ⟨none, none, Except.error "down", true⟩ = (SaveResult.ok,
      { config := some (⟨"k", "f", "UTC", [("u1", ⟨false, some (some 3), none⟩)],
          none, true, 0⟩, some 259200), rate := rate2,
        remoteForm := Except.error "down", writeOk := true })) ∧
    (∀ (d2 : CivilDate) (h2 : Int) (m2 : Option RunMetadata),
      shouldUpdateNow ⟨"k", "f", "UTC", [("u1", ⟨false, some (some 3), none⟩)],
        none, true, 0⟩ d2 h2 m2 = (false, m2)) :=
  claim_c8_all_disabled_save ⟨"k", "f", "UTC", [("u1", ⟨false, some (some 3), none⟩)]⟩
    ⟨2024, 3, 10⟩ 0 ⟨none, none, Except.error "down", true⟩
    (by decide) (by decide) (by decide) (Or.inr (by decide)) (by decide)

/-- Claim C10: a save request whose enabled rules all have *absent*
(undefined, not null) offsets — with at least one such enabled rule —
is classified active by `handleSaveConfig` (the JS check `minDays !==
null` is satisfied by `undefined`): the configuration is stored without
expiry and not disabled, the immediate apply is triggered, yet the
patcher's `hasMinDays`/`hasMaxDays` checks treat the absent offsets as
unconfigured, so the patch modifies nothing (`written = false` on any
remote blocks) and the save returns success with the remote form
untouched: the activity classification and the patcher's skip condition
disagree on absent versus null offsets. -/
theorem claim_c10_absent_vs_null (req : SaveRequest) (d : CivilDate) (nowMs : Int)
    (w : World)
    (hk : ¬ req.apiKey = "") (hf : ¬ req.formId = "") (hz : ¬ req.timezone = "")
    (hq : w.config.isSome = true ∨ w.rate.getD 0 < 5)
    (hsome : ∃ p ∈ req.fields, p.2.enabled = true ∧ p.2.minDays = none ∧ p.2.maxDays = none)
    (hall : ∀ p ∈ req.fields, p.2.enabled = false ∨
      (p.2.minDays = none ∧ p.2.maxDays = none)) :
    hasActiveFields req.fields = true ∧
    (∀ bs, updateFormDateLimits
      ⟨req.apiKey, req.formId, req.timezone, req.fields, none, false, nowMs⟩ d bs =
        ⟨false, bs⟩) ∧
    (∃ rate2, handleSaveConfig req d nowMs w = (SaveResult.ok,
      { w with config := some (⟨req.apiKey, req.formId, req.timezone, req.fields,
          none, false, nowMs⟩, none), rate := rate2 })) := by
  have ha : hasActiveFields req.fields = true := by
    unfold hasActiveFields
    rw [List.any_eq_true]
    obtain ⟨p, hp, he, h1, h2⟩ := hsome
    exact ⟨p, hp, by simp [he, h1, h2]⟩
  have hnoop : ∀ bs, updateFormDateLimits
      ⟨req.apiKey, req.formId, req.timezone, req.fields, none, false, nowMs⟩ d bs =
        ⟨false, bs⟩ := by
    intro bs
    refine updateFormDateLimits_allskip _ d bs ?_
    intro p hp
    rcases hall p hp with he | ⟨h1, h2⟩
    · exact Or.inl he
    · exact Or.inr ⟨by rw [h1]; rfl, by rw [h2]; rfl⟩
  refine ⟨ha, hnoop, ?_⟩
  cases hw : w.config with
  | none =>
    have hr : w.rate.getD 0 < 5 := by
      rcases hq with hs | hlt
      · rw [hw] at hs
        simp at hs
      · exact hlt
    exact ⟨some (w.rate.getD 0 + 1), handleSaveConfig_active_noop req d nowMs w
      (some (w.rate.getD 0 + 1)) hk hf hz ha (by
        rw [hw]
        show incrementRateLimit w.rate = Except.ok (some (w.rate.getD 0 + 1))
        unfold incrementRateLimit
        rw [if_neg (by omega)]) hnoop⟩
  | some c0 =>
    exact ⟨w.rate, handleSaveConfig_active_noop req d nowMs w w.rate hk hf hz ha
      (by rw [hw]) hnoop⟩

/-- Claim C10 (witness): one enabled rule with both offsets absent — the
request is classified active but the patcher modifies nothing. -/
theorem claim_c10_absent_vs_null_witness :
    hasActiveFields [("u1", ⟨true, none, none⟩)] = true ∧
    (∀ bs, updateFormDateLimits ⟨"k", "f", "UTC", [("u1", ⟨true, none, none⟩)],
        none, false, 0⟩ ⟨2024, 3, 10⟩ bs = ⟨false, bs⟩) ∧
    (∃ rate2, handleSaveConfig ⟨"k", "f", "UTC", [("u1", ⟨true, none, none⟩)]⟩
        ⟨2024, 3, 10⟩ 0
        ⟨none, none, Except.ok [⟨"INPUT_DATE", "u1", ⟨none, none⟩⟩], true⟩ =
      (SaveResult.ok,
        { config := some (⟨"k", "f", "UTC", [("u1", ⟨true, none, none⟩)],
            none, false, 0⟩, none), rate := rate2,
          remoteForm := Except.ok [⟨"INPUT_DATE", "u1", ⟨none, none⟩⟩], writeOk := true })) :=
  claim_c10_absent_vs_null ⟨"k", "f", "UTC", [("u1", ⟨true, none, none⟩)]⟩
    ⟨2024, 3, 10⟩ 0 ⟨none, none, Except.ok [⟨"INPUT_DATE", "u1", ⟨none, none⟩⟩], true⟩
    (by decide) (by decide) (by decide) (Or.inr (by decide))
    ⟨("u1", ⟨true, none, none⟩), by decide, rfl, rfl, rfl⟩
    (by
      intro p hp
      simp only [List.mem_singleton] at hp
      rw [hp]
      exact Or.inr ⟨rfl, rfl⟩)
